import Mathlib

/-!
Verification development for the workflows-engine computation core.

The definitions below are a shallow embedding of `src/computations/state.py`,
`src/computations/jobs.py`, `src/computations/engine.py` and
`src/computations/storage.py`:

* `datetime.datetime` instants and `datetime.timedelta` durations are both
  modelled as integers (`Int`), with `SchedVal` tagging which of the two a
  scheduling hint is; comparison and `delta_base_from + duration` become
  integer comparison and addition.
* Python's `_NotGiven` sentinel becomes the `Arg` type (`notGiven` versus
  `given v`), so that "omitted" stays distinct from "explicitly None"
  exactly as in `protocols.ScheduleBy`.
* `SimpleJSON` payloads are modelled as `String` (the claims only compare
  them for equality).
* Exceptions become the inductive `Exc`; `Computation.execute` returns
  `Except Exc Result`, mirroring "returns a result or raises".
* The mutable `JobStatus` objects shared between `JobTracker._start_jobs`
  and `JobTracker._added_jobs` are modelled with an explicit heap of
  `JobStatus` values addressed by `Ref` indices, so that Python aliasing
  (and the isolation provided by `JobStatus.clone`) is faithfully visible.
* `Engine._make_job` and `JobTracker._fresh_job_status` are abstract in the
  library and instantiated by the repository's test harness
  (`src/tests/test_job.py`, `M_Engine._make_job` and
  `M_JobTracker._fresh_job_status`); the embedding uses those concrete
  repository implementations.  The ambient clock used by `State.fresh`
  (`datetime.datetime.utcnow()`) is threaded as an explicit parameter.
-/

namespace Workflows

/-- `protocols.ExecutionState` (ordinal IntEnum): the "motion" axis. -/
inductive ExecutionState where
  | PENDING
  | PROGRESSING
  | CANCELLING
  | PAUSED
  | STOPPED
deriving DecidableEq

/-- `protocols.ResultState` (ordinal IntEnum): the "outcome" axis. -/
inductive ResultState where
  | ABSENT
  | SUCCESS
  | CANCELLED
  | HANDLED_FAILURE
  | UNHANDLED_FAILURE
deriving DecidableEq

/-- A scheduling value: a `datetime.datetime` instant or a
`datetime.timedelta` duration, both modelled over `Int`. -/
inductive SchedVal where
  | instant (t : Int)
  | duration (d : Int)
deriving DecidableEq

/-- Python's `protocols._NotGiven` sentinel versus a provided value:
`Arg α` distinguishes "argument omitted" from any real value of `α`. -/
inductive Arg (α : Type) where
  | notGiven
  | given (v : α)
deriving DecidableEq

/-- Resolve an optional argument against the current value, as in the body
of `State.clone` (`if isinstance(x, NotGiven): x = self.x`). -/
def Arg.resolve {α : Type} (a : Arg α) (cur : α) : α :=
  match a with
  | .notGiven => cur
  | .given v => v

/-- `protocols.ScheduleBy = datetime | timedelta | None | NotGiven`. -/
abbrev ScheduleBy := Arg (Option SchedVal)

/-- Sequence of path name segments (`protocols.Path`). -/
abbrev Path := List String

/-- `state.WorkflowIdentifier`: an opaque string wrapper. -/
structure WorkflowIdentifier where
  identifier : String
deriving DecidableEq

/-- `state.ErrorRaw`: `(format_code, format_version, serialized)`. -/
structure RawError where
  format_code : String
  format_version : Int
  serialized : String
deriving DecidableEq

/-- The exceptions that appear in the core (`computations/errors.py`), plus
`runtimeError` standing for arbitrary user exceptions raised inside
`Computation.execute`. -/
inductive Exc where
  | runtimeError (msg : String)
  | computationCancelled (identifier : String) (path : Path)
  | computationErrored (identifier : String) (path : Path) (error : String)
  | workflowNotFound (identifier : String)
deriving DecidableEq

/-- Model of Python `str(exc)` for the exceptions above (the default
serializer stores `str(exception)`; for `RuntimeError("boom")` that is
`"boom"`). -/
def excStr : Exc → String
  | .runtimeError msg => msg
  | .computationCancelled i p =>
      "ComputationCancelled(identifier=" ++ i ++ ", path=" ++ String.intercalate "." p ++ ")"
  | .computationErrored i p e =>
      "ComputationErrored(identifier=" ++ i ++ ", path=" ++ String.intercalate "." p
        ++ ", error=" ++ e ++ ")"
  | .workflowNotFound i => "WorkflowNotFound(identifier=" ++ i ++ ")"

/-- Model of Python `repr` of a `ResultState` member. -/
def resultStateRepr : ResultState → String
  | .ABSENT => "<ResultState.ABSENT: 0>"
  | .SUCCESS => "<ResultState.SUCCESS: 1>"
  | .CANCELLED => "<ResultState.CANCELLED: 2>"
  | .HANDLED_FAILURE => "<ResultState.HANDLED_FAILURE: 3>"
  | .UNHANDLED_FAILURE => "<ResultState.UNHANDLED_FAILURE: 4>"

/-- `state.ErrorBase`: a raw error that can also materialize a concrete
exception via `as_exception(identifier=..., path=...)`. -/
structure Error where
  raw : RawError
  as_exception : WorkflowIdentifier → Path → Exc

/-- `state.SimpleError.serialize`: serialized payload is `str(exception)`,
with `format_code="simple"`, `format_version=1`. -/
def SimpleError.serialize (exc : Exc) : RawError :=
  { format_code := "simple", format_version := 1, serialized := excStr exc }

/-- The resolved form of `state.SimpleError`: `as_exception` returns
`ComputationErrored(identifier, path, error=serialized)`. -/
def SimpleError.resolved (serialized : String) : Error :=
  { raw := { format_code := "simple", format_version := 1, serialized := serialized }
    as_exception := fun id p => Exc.computationErrored id.identifier p serialized }

/-- An error resolver promoting a raw "simple" error to its resolved form
(used to instantiate the engine's abstract `default_error_resolver` in
witnesses). -/
def simpleResolver (raw : RawError) : Error :=
  { raw := raw
    as_exception := fun id p => Exc.computationErrored id.identifier p raw.serialized }

/-- `state.State`: the immutable per-computation state value. -/
structure State where
  error : Option RawError
  execution_state : ExecutionState
  result_state : ResultState
  created_at : Int
  due_at : Option SchedVal
  schedule_next_latest_at : Option SchedVal
deriving DecidableEq

/-- `State.fresh`: PENDING/ABSENT with `created_at = utcnow()`; the clock is
an explicit parameter. -/
def State.fresh (now : Int) : State :=
  { error := none
    execution_state := ExecutionState.PENDING
    result_state := ResultState.ABSENT
    created_at := now
    due_at := none
    schedule_next_latest_at := none }

/-- `State.clone`: every omitted (`NotGiven`) argument preserves the current
field; `created_at` is not an argument and is always carried over. -/
def State.clone (s : State) (error : Arg (Option RawError))
    (execution_state : Arg ExecutionState) (result_state : Arg ResultState)
    (due_at : ScheduleBy) (schedule_next_latest_at : ScheduleBy) : State :=
  { error := error.resolve s.error
    execution_state := execution_state.resolve s.execution_state
    result_state := result_state.resolve s.result_state
    created_at := s.created_at
    due_at := due_at.resolve s.due_at
    schedule_next_latest_at := schedule_next_latest_at.resolve s.schedule_next_latest_at }

/-- `state.ComputationState`: the read-only view handed to a computation.
The `execution_state`/`result_state`/`due_at` attributes default to the
original state's values (nothing in the repository overrides them), so they
are modelled as derived functions. -/
structure ComputationState where
  original_state : State
  identifier : WorkflowIdentifier
  path : Path
  error : Option Error

def ComputationState.execution_state (cs : ComputationState) : ExecutionState :=
  cs.original_state.execution_state

def ComputationState.result_state (cs : ComputationState) : ResultState :=
  cs.original_state.result_state

def ComputationState.due_at (cs : ComputationState) : Option SchedVal :=
  cs.original_state.due_at

/-- `ComputationState.exception`, translated clause by clause from
`state.py`. -/
def ComputationState.exception (cs : ComputationState) : Option Exc :=
  if cs.error.isNone ∧ cs.result_state = ResultState.CANCELLED then
    some (Exc.computationCancelled cs.identifier.identifier cs.path)
  else if cs.result_state ≠ ResultState.HANDLED_FAILURE
      ∧ cs.result_state ≠ ResultState.UNHANDLED_FAILURE
      ∧ cs.result_state ≠ ResultState.CANCELLED then
    none
  else
    match cs.error with
    | none =>
        some (Exc.computationErrored cs.identifier.identifier cs.path
          (resultStateRepr cs.result_state))
    | some e => some (e.as_exception cs.identifier cs.path)

/-- `state.Result`: what a computation returns. -/
structure Result where
  state : State
  audit_message : String
  due_at : ScheduleBy
  schedule_next_latest_at : ScheduleBy

/-- `state.Results`: the factory bound to `computation_state._original_state`. -/
structure Results where
  original_state : State

/-- `Results.using(computation_state)`. -/
def Results.using (cs : ComputationState) : Results :=
  { original_state := cs.original_state }

/-- Python truthiness of a `datetime | timedelta | None` value: `None` is
falsy, any `datetime` is truthy, a `timedelta` is truthy iff non-zero.
This models the bare `and self._original_state.due_at` test in
`Results.no_change`. -/
def truthySched : Option SchedVal → Bool
  | none => false
  | some (.instant _) => true
  | some (.duration d) => d != 0

def Results.no_change (rs : Results) (audit_message : String)
    (due_at schedule_next_latest_at : ScheduleBy) : Result :=
  let due_at :=
    if due_at = Arg.notGiven ∧ truthySched rs.original_state.due_at then
      Arg.given rs.original_state.due_at
    else due_at
  let schedule_next_latest_at :=
    if schedule_next_latest_at = Arg.notGiven
        ∧ truthySched rs.original_state.schedule_next_latest_at then
      Arg.given rs.original_state.schedule_next_latest_at
    else schedule_next_latest_at
  { state := rs.original_state.clone Arg.notGiven Arg.notGiven Arg.notGiven
      Arg.notGiven Arg.notGiven
    audit_message := audit_message
    due_at := due_at
    schedule_next_latest_at := schedule_next_latest_at }

def Results.pending (rs : Results) (audit_message : String)
    (due_at schedule_next_latest_at : ScheduleBy) : Result :=
  { state := rs.original_state.clone (Arg.given none)
      (Arg.given ExecutionState.PENDING) (Arg.given ResultState.ABSENT)
      Arg.notGiven Arg.notGiven
    audit_message := audit_message
    due_at := due_at
    schedule_next_latest_at := schedule_next_latest_at }

def Results.progressing (rs : Results) (audit_message : String)
    (due_at schedule_next_latest_at : ScheduleBy) : Result :=
  { state := rs.original_state.clone (Arg.given none)
      (Arg.given ExecutionState.PROGRESSING) (Arg.given ResultState.ABSENT)
      Arg.notGiven Arg.notGiven
    audit_message := audit_message
    due_at := due_at
    schedule_next_latest_at := schedule_next_latest_at }

def Results.success (rs : Results) (audit_message : String)
    (due_at schedule_next_latest_at : ScheduleBy) : Result :=
  { state := rs.original_state.clone (Arg.given none)
      (Arg.given ExecutionState.STOPPED) (Arg.given ResultState.SUCCESS)
      Arg.notGiven Arg.notGiven
    audit_message := audit_message
    due_at := due_at
    schedule_next_latest_at := schedule_next_latest_at }

def Results.paused (rs : Results) (audit_message : String)
    (due_at schedule_next_latest_at : ScheduleBy) : Result :=
  { state := rs.original_state.clone (Arg.given none)
      (Arg.given ExecutionState.PAUSED) (Arg.given ResultState.ABSENT)
      Arg.notGiven Arg.notGiven
    audit_message := audit_message
    due_at := due_at
    schedule_next_latest_at := schedule_next_latest_at }

def Results.cancelled (rs : Results) (audit_message : String)
    (due_at schedule_next_latest_at : ScheduleBy) : Result :=
  { state := rs.original_state.clone (Arg.given none)
      (Arg.given ExecutionState.STOPPED) (Arg.given ResultState.CANCELLED)
      Arg.notGiven Arg.notGiven
    audit_message := audit_message
    due_at := due_at
    schedule_next_latest_at := schedule_next_latest_at }

def Results.cancelling (rs : Results) (audit_message : String)
    (due_at schedule_next_latest_at : ScheduleBy) : Result :=
  { state := rs.original_state.clone (Arg.given none)
      (Arg.given ExecutionState.CANCELLING) (Arg.given ResultState.ABSENT)
      Arg.notGiven Arg.notGiven
    audit_message := audit_message
    due_at := due_at
    schedule_next_latest_at := schedule_next_latest_at }

/-- `Results.handled_failure`: Python stores the given resolved `Error`
object in `state.error`, consumed through its `ErrorRaw` interface; the
embedding stores its raw projection. -/
def Results.handled_failure (rs : Results) (error : Error) (audit_message : String)
    (due_at schedule_next_latest_at : ScheduleBy) : Result :=
  { state := rs.original_state.clone (Arg.given (some error.raw))
      (Arg.given ExecutionState.STOPPED) (Arg.given ResultState.HANDLED_FAILURE)
      Arg.notGiven Arg.notGiven
    audit_message := audit_message
    due_at := due_at
    schedule_next_latest_at := schedule_next_latest_at }

def Results.unhandled_failure (rs : Results) (exc : Exc) (audit_message : String)
    (due_at : ScheduleBy) (exception_serializer : Exc → RawError)
    (schedule_next_latest_at : ScheduleBy) : Result :=
  { state := rs.original_state.clone (Arg.given (some (exception_serializer exc)))
      (Arg.given ExecutionState.STOPPED) (Arg.given ResultState.UNHANDLED_FAILURE)
      Arg.notGiven Arg.notGiven
    audit_message := audit_message
    due_at := due_at
    schedule_next_latest_at := schedule_next_latest_at }

/-- `state.StoredInfo`: the persistence wrapper. -/
structure StoredInfo where
  state : State
deriving DecidableEq

/-- `StoredInfo.merge(result)`. -/
def StoredInfo.merge (si : StoredInfo) (result : Result) : StoredInfo :=
  { state := si.state.clone (Arg.given result.state.error)
      (Arg.given result.state.execution_state) (Arg.given result.state.result_state)
      result.due_at result.schedule_next_latest_at }

/-- `state.JobPath`: `(identifier, prefix, job_name)`; its `path` property is
`(*prefix, job_name)`.  (`prefix` is a Lean keyword, hence `pathPrefix`.) -/
structure JobPath where
  identifier : WorkflowIdentifier
  pathPrefix : Path
  job_name : String

def JobPath.path (jp : JobPath) : Path :=
  jp.pathPrefix ++ [jp.job_name]

/-- `jobs.ComputationBase` together with the optional protocols a concrete
computation may additionally implement: `exception_serializer` is `some`
when the object satisfies `isinstance(computation, ExceptionSerializer)`,
and `error_resolver` is `some` when it satisfies
`isinstance(computation, ErrorResolver)`.  `execute` is modelled as a
function of the computation state that returns a `Result` or raises. -/
structure Computation where
  execute : ComputationState → Except Exc Result
  exception_serializer : Option (Exc → RawError)
  error_resolver : Option (RawError → Error)

/-- `jobs.Job`: `(name, state, computation, _result)` for one execution. -/
structure Job where
  result : Result
  name : String
  computation : Computation
  state : ComputationState

/-- `Job.done`, an exhaustive match over `ExecutionState`. -/
def Job.done (j : Job) : Bool :=
  match j.state.execution_state with
  | .PENDING => false
  | .PROGRESSING => false
  | .CANCELLING => false
  | .PAUSED => false
  | .STOPPED => true

/-- `Job.success`, an exhaustive match over `ResultState`. -/
def Job.success (j : Job) : Bool :=
  match j.state.result_state with
  | .ABSENT => false
  | .SUCCESS => true
  | .CANCELLED => false
  | .HANDLED_FAILURE => false
  | .UNHANDLED_FAILURE => false

/-- `Job.cancelled`. -/
def Job.cancelled (j : Job) : Bool :=
  match j.state.result_state with
  | .ABSENT => false
  | .SUCCESS => false
  | .CANCELLED => true
  | .HANDLED_FAILURE => false
  | .UNHANDLED_FAILURE => false

/-- `Job.exception`. -/
def Job.exception (j : Job) : Option Exc :=
  match j.state.result_state with
  | .ABSENT => none
  | .SUCCESS => none
  | .CANCELLED => j.state.exception
  | .HANDLED_FAILURE => j.state.exception
  | .UNHANDLED_FAILURE => j.state.exception

/-- `jobs.JobStatus`: the value held by one mutable status object. -/
structure JobStatus where
  name : String
  job_before : Option Job
  job_executions : List Job

instance : Inhabited JobStatus :=
  ⟨{ name := "", job_before := none, job_executions := [] }⟩

/-- `JobStatus.add_execution` as a value transformation. -/
def JobStatus.add_execution (s : JobStatus) (j : Job) : JobStatus :=
  { s with job_executions := s.job_executions ++ [j] }

/-- `JobStatus.clone`: construct a fresh status with the same `name` and
`job_before` and an empty executions list, then re-append each existing
execution in order. -/
def JobStatus.clone (s : JobStatus) : JobStatus :=
  let init : JobStatus := { name := s.name, job_before := s.job_before, job_executions := [] }
  s.job_executions.foldl (fun acc j => acc.add_execution j) init

/-- `JobStatus.latest_execution`: the last appended execution, if any. -/
def JobStatus.latest_execution (s : JobStatus) : Option Job :=
  s.job_executions.getLast?

/-- `JobStatus.earliest_due_at`, translated clause by clause. -/
def JobStatus.earliest_due_at (s : JobStatus)
    (delta_base_from must_be_greater_than : Int) : Option Int :=
  match s.latest_execution with
  | none => none
  | some latest =>
    match latest.result.due_at with
    | Arg.notGiven => none
    | Arg.given none => none
    | Arg.given (some v) =>
      let value : Int :=
        match v with
        | .instant t => t
        | .duration d => delta_base_from + d
      if value < must_be_greater_than then none else some value

/-- `JobStatus.earliest_next_schedule_at`: identical but reading
`schedule_next_latest_at`. -/
def JobStatus.earliest_next_schedule_at (s : JobStatus)
    (delta_base_from must_be_greater_than : Int) : Option Int :=
  match s.latest_execution with
  | none => none
  | some latest =>
    match latest.result.schedule_next_latest_at with
    | Arg.notGiven => none
    | Arg.given none => none
    | Arg.given (some v) =>
      let value : Int :=
        match v with
        | .instant t => t
        | .duration d => delta_base_from + d
      if value < must_be_greater_than then none else some value

/-- A reference to a mutable `JobStatus` object: an index into the heap. -/
abbrev Ref := Nat

/-- The heap of mutable `JobStatus` objects. -/
structure Heap where
  store : List JobStatus

def Heap.get (h : Heap) (r : Ref) : JobStatus :=
  h.store.getD r default

def Heap.set (h : Heap) (r : Ref) (v : JobStatus) : Heap :=
  { store := h.store.set r v }

/-- Allocate a new object, returning its reference. -/
def Heap.alloc (h : Heap) (v : JobStatus) : Ref × Heap :=
  (h.store.length, { store := h.store ++ [v] })

/-- Association-list lookup, first match wins (Python `dict.get`). -/
def lookupA {κ α : Type} [DecidableEq κ] : List (κ × α) → κ → Option α
  | [], _ => none
  | (k, v) :: rest, key => if k = key then some v else lookupA rest key

/-- Association-list store (Python `dict[key] = value`): overwrite the first
binding of the key, or append a new binding. -/
def updateA {κ α : Type} [DecidableEq κ] : List (κ × α) → κ → α → List (κ × α)
  | [], key, value => [(key, value)]
  | (k, v) :: rest, key, value =>
      if k = key then (key, value) :: rest else (k, v) :: updateA rest key value

/-- Python `{**first, **second}`: all keys of `first` (values overridden by
`second` on collision) followed by the keys only in `second`. -/
def mergeMaps {κ α : Type} [DecidableEq κ] (first second : List (κ × α)) : List (κ × α) :=
  first.map (fun pr => (pr.1, (lookupA second pr.1).getD pr.2))
    ++ second.filter (fun pr => (lookupA first pr.1).isNone)

/-- `jobs.JobTracker`: `_start_jobs` and `_added_jobs` map paths to shared
mutable `JobStatus` objects, modelled as references into a heap. -/
structure JobTracker where
  heap : Heap
  start_jobs : List (Path × Ref)
  added_jobs : List (Path × Ref)

/-- Well-formedness: every reference held by the tracker is live. -/
def JobTracker.WF (tr : JobTracker) : Prop :=
  (∀ pr ∈ tr.start_jobs, pr.2 < tr.heap.store.length)
    ∧ ∀ pr ∈ tr.added_jobs, pr.2 < tr.heap.store.length

/-- `JobTracker._fresh_job_status`, as instantiated by the repository's
harness (`M_JobTracker`): a status with the given name, no `job_before` and
no executions. -/
def freshJobStatus (name : String) : JobStatus :=
  { name := name, job_before := none, job_executions := [] }

/-- `JobTracker.jobs(path, max_levels)`: merge of start and added jobs
filtered by prefix and depth. -/
def JobTracker.jobs (tr : JobTracker) (path : Path) (max_levels : Int) :
    List (Path × Ref) :=
  (mergeMaps tr.start_jobs tr.added_jobs).filter (fun pr =>
    decide (pr.1.take path.length = path)
      && (max_levels == -1
        || (decide (0 < (pr.1.drop path.length).length)
          && decide (((pr.1.drop path.length).length : Int) ≤ max_levels))))

/-- `JobTracker.job_status(job_path)`: reuse an added status, else clone a
start status into `added_jobs`, else create a fresh one. -/
def JobTracker.job_status (tr : JobTracker) (jp : JobPath) : Ref × JobTracker :=
  match lookupA tr.added_jobs jp.path with
  | some r => (r, tr)
  | none =>
    match lookupA tr.start_jobs jp.path with
    | some r =>
      let alloc := tr.heap.alloc (tr.heap.get r).clone
      (alloc.1, { tr with heap := alloc.2
                          added_jobs := tr.added_jobs ++ [(jp.path, alloc.1)] })
    | none =>
      let alloc := tr.heap.alloc (freshJobStatus jp.job_name)
      (alloc.1, { tr with heap := alloc.2
                          added_jobs := tr.added_jobs ++ [(jp.path, alloc.1)] })

/-- Mutating `status.add_execution(job)` through a reference. -/
def JobTracker.add_execution (tr : JobTracker) (r : Ref) (j : Job) : JobTracker :=
  { tr with heap := tr.heap.set r ((tr.heap.get r).add_execution j) }

/-- The executions list observable at a path (through `added_jobs` first,
then `start_jobs`), used to state frame conditions. -/
def JobTracker.execsAt (tr : JobTracker) (p : Path) : List Job :=
  match lookupA tr.added_jobs p with
  | some r => (tr.heap.get r).job_executions
  | none =>
    match lookupA tr.start_jobs p with
    | some r => (tr.heap.get r).job_executions
    | none => []

/-- `JobTracker._get_earliest_date` over an already-collected list of
per-status values: keep the non-null ones and take their minimum. -/
def getEarliestDate (dates : List (Option Int)) : Option Int :=
  match dates.filterMap id with
  | [] => none
  | x :: xs => some (xs.foldl min x)

/-- `JobTracker.earliest_due_at`: aggregate over `jobs(max_levels=-1)`. -/
def JobTracker.earliest_due_at (tr : JobTracker)
    (delta_base_from must_be_greater_than : Int) : Option Int :=
  getEarliestDate ((tr.jobs [] (-1)).map (fun pr =>
    (tr.heap.get pr.2).earliest_due_at delta_base_from must_be_greater_than))

/-- `JobTracker.earliest_next_schedule_at`. -/
def JobTracker.earliest_next_schedule_at (tr : JobTracker)
    (delta_base_from must_be_greater_than : Int) : Option Int :=
  getEarliestDate ((tr.jobs [] (-1)).map (fun pr =>
    (tr.heap.get pr.2).earliest_next_schedule_at delta_base_from must_be_greater_than))

/-- `override_execute`: `None`, `True`, or a replacement computation. -/
inductive OverrideExecute where
  | noOverride
  | skipExecute
  | withComp (c : Computation)

/-- `engine.Engine`: carries the default resolver/serializer; `now` models
the ambient clock consumed by `State.fresh` inside `_make_job`. -/
structure Engine where
  default_error_resolver : RawError → Error
  default_exception_serializer : Exc → RawError
  now : Int

/-- `Engine._make_error`: `None` without a result or without a stored error,
otherwise resolve via the computation when it implements `ErrorResolver`,
else via the engine's default resolver. -/
def Engine.make_error (eng : Engine) (computation : Computation)
    (result : Option Result) : Option Error :=
  match result with
  | none => none
  | some r =>
    match r.state.error with
    | none => none
    | some raw => some ((computation.error_resolver.getD eng.default_error_resolver) raw)

/-- `Engine._make_job`, as instantiated by the repository's harness
(`M_Engine._make_job` in `src/tests/test_job.py`): default the result to a
fresh-state result, build the `ComputationState` and wrap everything in a
`Job`. -/
def Engine.make_job (eng : Engine) (jp : JobPath) (result : Option Result)
    (error : Option Error) (computation : Computation) : Job :=
  let result := result.getD
    { state := State.fresh eng.now, audit_message := ""
      due_at := Arg.notGiven, schedule_next_latest_at := Arg.notGiven }
  let computation_state : ComputationState :=
    { original_state := result.state, identifier := jp.identifier
      path := jp.path, error := error }
  { result := result, name := jp.job_name, computation := computation
    state := computation_state }

/-- `Engine.run`, translated step by step from `engine.py`.  The `try/except`
around `intention.execute` becomes the match on `Except`; because every
branch produces a value, no exception propagates out of `run`. -/
def Engine.run (eng : Engine) (jp : JobPath) (job_tracker : JobTracker)
    (computation : Computation) (override_execute : OverrideExecute) :
    Job × JobTracker :=
  let rt := job_tracker.job_status jp
  let job_status := rt.2.heap.get rt.1
  let result_before := job_status.job_before.map (fun j => j.result)
  let job := eng.make_job jp result_before
    (eng.make_error computation result_before) computation
  match override_execute with
  | .skipExecute => (job, rt.2)
  | _ =>
    let intention :=
      match override_execute with
      | .withComp c => c
      | _ => computation
    let result :=
      match intention.execute job.state with
      | .ok r => r
      | .error exc =>
        let exception_serializer :=
          computation.exception_serializer.getD eng.default_exception_serializer
        (Results.using job.state).unhandled_failure exc
          "unhandled exception caught by internal logic" Arg.notGiven
          exception_serializer Arg.notGiven
    let job_after := eng.make_job jp (some result)
      (eng.make_error computation (some result)) computation
    (job_after, rt.2.add_execution rt.1 job_after)

/-- `state.WorkflowInformation` (payload modelled as `String`). -/
structure WorkflowInformation where
  workflow_code : String
  workflow_version : Int
  information : String
  tags : List String
  earliest_due_at : Option Int
  earliest_next_schedule_at : Option Int
deriving DecidableEq

/-- `storage.MemoryStorage`: the reference in-memory implementation, with
its two maps (`_computations` and `_workflows`) as association lists.  The
per-identifier locks are out of scope for the claims. -/
structure MemoryStorage where
  computations : List (WorkflowIdentifier × List (Path × StoredInfo))
  workflows : List (WorkflowIdentifier × WorkflowInformation)
deriving DecidableEq

/-- `MemoryStorage.retrieve_workflow_information`. -/
def MemoryStorage.retrieve_workflow_information (st : MemoryStorage)
    (identifier : WorkflowIdentifier) : Except Exc WorkflowInformation :=
  match lookupA st.workflows identifier with
  | none => Except.error (Exc.workflowNotFound identifier.identifier)
  | some w => Except.ok w

/-- `MemoryStorage.upsert_workflow_information`: unconditional assignment;
never fails. -/
def MemoryStorage.upsert_workflow_information (st : MemoryStorage)
    (identifier : WorkflowIdentifier) (workflow_information : WorkflowInformation) :
    MemoryStorage :=
  { st with workflows := updateA st.workflows identifier workflow_information }

/-- `MemoryStorage.retrieve_computations`: raises `WorkflowNotFound` on
identifiers absent from `_workflows` (even when `_computations` has an
entry); `dict(self._computations.get(identifier) or {})` collapses a
missing or empty entry to the empty map. -/
def MemoryStorage.retrieve_computations (st : MemoryStorage)
    (identifier : WorkflowIdentifier) : Except Exc (List (Path × StoredInfo)) :=
  if (lookupA st.workflows identifier).isNone then
    Except.error (Exc.workflowNotFound identifier.identifier)
  else
    Except.ok ((lookupA st.computations identifier).getD [])

/-- `MemoryStorage.upsert_computations`: fails with `WorkflowNotFound` for
unknown identifiers, otherwise merges the given map per-path into the
existing one. -/
def MemoryStorage.upsert_computations (st : MemoryStorage)
    (identifier : WorkflowIdentifier) (stored_infos : List (Path × StoredInfo)) :
    Except Exc MemoryStorage :=
  if (lookupA st.workflows identifier).isNone then
    Except.error (Exc.workflowNotFound identifier.identifier)
  else
    let current := (lookupA st.computations identifier).getD []
    let merged := stored_infos.foldl (fun acc pr => updateA acc pr.1 pr.2) current
    Except.ok { st with computations := updateA st.computations identifier merged }

/-- `StorageBase.store_new_workflow`: allocate a fresh identifier (the
generated string is threaded as a parameter standing for
`_new_identifier_str()`), persist the initial information produced by
`new_saver.for_storage(identifier)`, return the identifier. -/
def MemoryStorage.store_new_workflow (st : MemoryStorage) (new_id : String)
    (for_storage : WorkflowIdentifier → WorkflowInformation) :
    WorkflowIdentifier × MemoryStorage :=
  let identifier : WorkflowIdentifier := { identifier := new_id }
  (identifier, st.upsert_workflow_information identifier (for_storage identifier))

/-- The pre-snapshot `Job` that `Engine.run` builds in steps 1–4: the
status for the path is looked up, `result_before` is taken from
`job_before._result` when present, and the error is resolved against the
original computation. -/
def Engine.preJob (eng : Engine) (jp : JobPath) (tr : JobTracker)
    (comp : Computation) : Job :=
  eng.make_job jp
    (((tr.job_status jp).2.heap.get (tr.job_status jp).1).job_before.map
      (fun jb => jb.result))
    (eng.make_error comp
      (((tr.job_status jp).2.heap.get (tr.job_status jp).1).job_before.map
        (fun jb => jb.result)))
    comp

/-- The `Result` `Engine.run` obtains in steps 6–8: `intention.execute` on
the pre-snapshot's state, with a raise converted to `unhandled_failure`
using the serializer selected from the *original* computation. -/
def Engine.runResult (eng : Engine) (jp : JobPath) (tr : JobTracker)
    (comp intention : Computation) : Result :=
  match intention.execute (eng.preJob jp tr comp).state with
  | Except.ok r => r
  | Except.error e =>
    (Results.using (eng.preJob jp tr comp).state).unhandled_failure e
      "unhandled exception caught by internal logic" Arg.notGiven
      (comp.exception_serializer.getD eng.default_exception_serializer) Arg.notGiven

/-- An empty job tracker, used by witnesses. -/
def emptyTracker : JobTracker :=
  { heap := { store := [] }, start_jobs := [], added_jobs := [] }

/-- A concrete job path, used by witnesses. -/
def witnessJobPath : JobPath :=
  { identifier := { identifier := "w1" }, pathPrefix := [], job_name := "j1" }

/-- Spec-side description of how a scheduling value resolves to an instant:
an instant stands as-is, a duration is offset from `delta_base_from`. -/
def resolveSched (delta_base_from : Int) : SchedVal → Int
  | .instant t => t
  | .duration d => delta_base_from + d

/-- A concrete computation whose `execute` always raises, used by witnesses. -/
def boomComputation : Computation :=
  { execute := fun _ => Except.error (Exc.runtimeError "boom")
    exception_serializer := none
    error_resolver := none }

/-- A concrete engine with the simple serializer and resolver, used by
witnesses. -/
def witnessEngine : Engine :=
  { default_error_resolver := simpleResolver
    default_exception_serializer := SimpleError.serialize
    now := 0 }

/-- A concrete computation state, used by witnesses. -/
def witnessCS : ComputationState :=
  { original_state := State.fresh 0, identifier := { identifier := "w1" }
    path := ["j1"], error := none }

/-- A job whose result carries the given scheduling hints, used by
witnesses. -/
def jobWithHints (v : ScheduleBy) : Job :=
  { result := { state := State.fresh 0, audit_message := ""
                due_at := v, schedule_next_latest_at := v }
    name := "j", computation := boomComputation, state := witnessCS }

/-- A status whose single execution carries the given hints, used by
witnesses. -/
def statusWithHints (v : ScheduleBy) : JobStatus :=
  { name := "j", job_before := none, job_executions := [jobWithHints v] }

/-- A tracker with three start statuses contributing hints 5, 3 and
nothing, used by witnesses. -/
def witnessTracker : JobTracker :=
  { heap := { store := [statusWithHints (Arg.given (some (SchedVal.instant 5))),
                        statusWithHints (Arg.given (some (SchedVal.instant 3))),
                        statusWithHints Arg.notGiven] }
    start_jobs := [(["a"], 0), (["b"], 1), (["c"], 2)]
    added_jobs := [] }

/-! ### Helper lemmas -/

theorem listGetD_append_lt {α : Type} :
    ∀ (l l' : List α) (i : Nat) (d : α), i < l.length →
      (l ++ l').getD i d = l.getD i d
  | [], _, i, _, h => absurd h (by simp)
  | _ :: _, _, 0, _, _ => rfl
  | _ :: as, l', n + 1, d, h => by
    simp only [List.cons_append, List.getD_cons_succ]
    exact listGetD_append_lt as l' n d (by simpa using Nat.lt_of_succ_lt_succ h)

theorem listGetD_append_len {α : Type} :
    ∀ (l : List α) (v d : α), (l ++ [v]).getD l.length d = v
  | [], _, _ => rfl
  | a :: as, v, d => by
    simp only [List.cons_append, List.length_cons, List.getD_cons_succ]
    exact listGetD_append_len as v d

theorem listGetD_set_self {α : Type} :
    ∀ (l : List α) (i : Nat) (v d : α), i < l.length →
      (l.set i v).getD i d = v
  | [], i, _, _, h => absurd h (by simp)
  | _ :: _, 0, _, _, _ => rfl
  | _ :: as, n + 1, v, d, h => by
    simp only [List.set_cons_succ, List.getD_cons_succ]
    exact listGetD_set_self as n v d (by simpa using Nat.lt_of_succ_lt_succ h)

theorem listGetD_set_ne {α : Type} :
    ∀ (l : List α) (i j : Nat) (v d : α), i ≠ j →
      (l.set i v).getD j d = l.getD j d
  | [], _, _, _, _, _ => rfl
  | _ :: _, 0, 0, _, _, h => absurd rfl h
  | _ :: _, 0, _ + 1, _, _, _ => rfl
  | _ :: _, _ + 1, 0, _, _, _ => rfl
  | _ :: as, n + 1, m + 1, v, d, h => by
    simp only [List.set_cons_succ, List.getD_cons_succ]
    exact listGetD_set_ne as n m v d (fun hnm => h (by rw [hnm]))

theorem lookupA_mem {κ α : Type} [DecidableEq κ] :
    ∀ {m : List (κ × α)} {k : κ} {v : α}, lookupA m k = some v → (k, v) ∈ m := by
  intro m
  induction m with
  | nil => intro k v h; simp [lookupA] at h
  | cons pr rest ih =>
    intro k v h
    obtain ⟨k', v'⟩ := pr
    by_cases hk : k' = k
    · subst hk
      rw [lookupA, if_pos rfl] at h
      injection h with h
      subst h
      exact List.mem_cons_self _ _
    · rw [lookupA, if_neg hk] at h
      exact List.mem_cons_of_mem _ (ih h)

theorem lookupA_append_single_ne {κ α : Type} [DecidableEq κ]
    (m : List (κ × α)) (k k' : κ) (v : α) (h : k ≠ k') :
    lookupA (m ++ [(k, v)]) k' = lookupA m k' := by
  induction m with
  | nil => simp [lookupA, h]
  | cons pr rest ih =>
    by_cases hk : pr.1 = k'
    · simp [lookupA, hk]
    · simp only [List.cons_append, lookupA, if_neg hk]
      exact ih

theorem lookupA_updateA_self {κ α : Type} [DecidableEq κ]
    (m : List (κ × α)) (k : κ) (v : α) : lookupA (updateA m k v) k = some v := by
  induction m with
  | nil => simp [updateA, lookupA]
  | cons pr rest ih =>
    obtain ⟨k', v'⟩ := pr
    by_cases hk : k' = k
    · simp [updateA, lookupA, hk]
    · simp [updateA, lookupA, hk, ih]

theorem lookupA_updateA_ne {κ α : Type} [DecidableEq κ]
    (m : List (κ × α)) (k k' : κ) (v : α) (h : k ≠ k') :
    lookupA (updateA m k v) k' = lookupA m k' := by
  induction m with
  | nil => simp [updateA, lookupA, h]
  | cons pr rest ih =>
    obtain ⟨k'', v''⟩ := pr
    by_cases hk : k'' = k
    · subst hk
      simp [updateA, lookupA, h]
    · by_cases hk' : k'' = k'
      · simp [updateA, lookupA, hk, hk', Ne.symm h]
      · simp [updateA, lookupA, hk, hk', ih]

theorem foldl_updateA_lookup {κ α : Type} [DecidableEq κ] :
    ∀ (infos : List (κ × α)) (cur : List (κ × α)) (p : κ),
      (infos.map Prod.fst).Nodup →
      lookupA (infos.foldl (fun acc pr => updateA acc pr.1 pr.2) cur) p
        = ((lookupA infos p).map some).getD (lookupA cur p)
  | [], cur, p, _ => by simp [lookupA]
  | (k, v) :: rest, cur, p, hnd => by
    have hnd' : (rest.map Prod.fst).Nodup := (List.nodup_cons.mp (by simpa using hnd)).2
    have hknotin : k ∉ rest.map Prod.fst := (List.nodup_cons.mp (by simpa using hnd)).1
    simp only [List.foldl_cons]
    rw [foldl_updateA_lookup rest _ p hnd']
    by_cases hk : k = p
    · subst hk
      have hrest : lookupA rest k = none := by
        cases hres : lookupA rest k with
        | none => rfl
        | some w =>
          exact absurd (List.mem_map.mpr ⟨(k, w), lookupA_mem hres, rfl⟩) hknotin
      simp [lookupA, hrest, lookupA_updateA_self]
    · simp [lookupA, hk, lookupA_updateA_ne _ _ _ _ hk]

theorem foldlMin_mem : ∀ (xs : List Int) (x : Int), xs.foldl min x ∈ x :: xs
  | [], x => by simp
  | a :: as, x => by
    simp only [List.foldl_cons]
    have h := foldlMin_mem as (min x a)
    rcases List.mem_cons.mp h with h' | h'
    · rcases min_choice x a with hm | hm
      · rw [h', hm]; exact List.mem_cons_self _ _
      · rw [h', hm]; exact List.mem_cons_of_mem _ (List.mem_cons_self _ _)
    · exact List.mem_cons_of_mem _ (List.mem_cons_of_mem _ h')

theorem foldlMin_le : ∀ (xs : List Int) (x : Int), ∀ y ∈ x :: xs, xs.foldl min x ≤ y
  | [], x => by intro y hy; simp at hy; simp [hy]
  | a :: as, x => by
    intro y hy
    simp only [List.foldl_cons]
    have hbase : as.foldl min (min x a) ≤ min x a :=
      foldlMin_le as (min x a) (min x a) (List.mem_cons_self _ _)
    rcases List.mem_cons.mp hy with h' | h'
    · subst h'
      exact le_trans hbase (min_le_left _ _)
    · rcases List.mem_cons.mp h' with h'' | h''
      · subst h''
        exact le_trans hbase (min_le_right _ _)
      · exact foldlMin_le as (min x a) y (List.mem_cons_of_mem _ h'')

theorem getEarliestDate_eq_none_iff (dates : List (Option Int)) :
    getEarliestDate dates = none ↔ ∀ d ∈ dates, d = none := by
  constructor
  · intro h d hd
    cases d with
    | none => rfl
    | some t =>
      have hmem : t ∈ dates.filterMap id := List.mem_filterMap.mpr ⟨some t, hd, rfl⟩
      unfold getEarliestDate at h
      cases hf : dates.filterMap id with
      | nil => rw [hf] at hmem; simp at hmem
      | cons x xs => rw [hf] at h; simp at h
  · intro h
    have hf : dates.filterMap id = [] := by
      apply List.eq_nil_iff_forall_not_mem.mpr
      intro t ht
      obtain ⟨a, ha, hat⟩ := List.mem_filterMap.mp ht
      rw [h a ha] at hat
      simp at hat
    unfold getEarliestDate
    rw [hf]

theorem getEarliestDate_spec (dates : List (Option Int)) (t : Int)
    (h : getEarliestDate dates = some t) :
    some t ∈ dates ∧ ∀ u : Int, some u ∈ dates → t ≤ u := by
  unfold getEarliestDate at h
  cases hf : dates.filterMap id with
  | nil => rw [hf] at h; exact absurd h (by simp)
  | cons x xs =>
    rw [hf] at h
    simp only [Option.some.injEq] at h
    subst h
    constructor
    · have hmem : xs.foldl min x ∈ x :: xs := foldlMin_mem xs x
      rw [← hf] at hmem
      obtain ⟨a, ha, hax⟩ := List.mem_filterMap.mp hmem
      cases a with
      | none => simp at hax
      | some u =>
        simp only [id_eq, Option.some.injEq] at hax
        rw [← hax]
        exact ha
    · intro u hu
      have hmem : u ∈ dates.filterMap id := List.mem_filterMap.mpr ⟨some u, hu, rfl⟩
      rw [hf] at hmem
      exact foldlMin_le xs x u hmem

theorem foldl_add_execution (l : List Job) (acc : JobStatus) :
    l.foldl (fun a j => a.add_execution j) acc
      = { acc with job_executions := acc.job_executions ++ l } := by
  induction l generalizing acc with
  | nil => simp
  | cons j js ih =>
    simp only [List.foldl_cons]
    rw [ih]
    simp [JobStatus.add_execution]

/-- `JobStatus.clone` in closed form: the clone carries the same name,
`job_before` and executions list. -/
theorem JobStatus.clone_eq (s : JobStatus) :
    s.clone = { name := s.name, job_before := s.job_before
                job_executions := s.job_executions } := by
  unfold JobStatus.clone
  rw [foldl_add_execution]
  simp

theorem Heap.get_set_self (h : Heap) (r : Ref) (v : JobStatus)
    (hr : r < h.store.length) : (h.set r v).get r = v :=
  listGetD_set_self h.store r v default hr

theorem Heap.get_set_ne (h : Heap) (r r' : Ref) (v : JobStatus)
    (hne : r ≠ r') : (h.set r v).get r' = h.get r' :=
  listGetD_set_ne h.store r r' v default hne

theorem Heap.get_alloc_old (h : Heap) (v : JobStatus) (r : Ref)
    (hr : r < h.store.length) : (h.alloc v).2.get r = h.get r :=
  listGetD_append_lt h.store [v] r default hr

theorem Heap.get_alloc_new (h : Heap) (v : JobStatus) :
    (h.alloc v).2.get (h.alloc v).1 = v :=
  listGetD_append_len h.store v default

/-- Under well-formedness, `job_status` returns a reference that is live in
the resulting tracker. -/
theorem job_status_ref_lt (tr : JobTracker) (jp : JobPath) (hwf : tr.WF) :
    (tr.job_status jp).1 < (tr.job_status jp).2.heap.store.length := by
  unfold JobTracker.job_status
  cases h1 : lookupA tr.added_jobs jp.path with
  | some r => exact hwf.2 _ (lookupA_mem h1)
  | none =>
    cases h2 : lookupA tr.start_jobs jp.path with
    | some r => simp [Heap.alloc]
    | none => simp [Heap.alloc]

theorem lookupA_append_single_self {κ α : Type} [DecidableEq κ]
    (m : List (κ × α)) (k : κ) (v : α) (h : lookupA m k = none) :
    lookupA (m ++ [(k, v)]) k = some v := by
  induction m with
  | nil => simp [lookupA]
  | cons pr rest ih =>
    obtain ⟨k', v'⟩ := pr
    by_cases hk : k' = k
    · subst hk
      simp [lookupA] at h
    · simp only [List.cons_append, lookupA, if_neg hk] at h ⊢
      exact ih h

/-! ### Claim theorems -/

/-- Claim C2: each `Results` transition constructor returns a `Result`
whose state is the bound original state cloned with exactly the fixed
overrides of the transition table (`no_change`: everything unchanged;
`pending`: null/PENDING/ABSENT; `progressing`: null/PROGRESSING/ABSENT;
`success`: null/STOPPED/SUCCESS; `paused`: null/PAUSED/ABSENT;
`cancelled`: null/STOPPED/CANCELLED; `cancelling`: null/CANCELLING/ABSENT;
`handled_failure`: given error/STOPPED/HANDLED_FAILURE;
`unhandled_failure`: serialized exception/STOPPED/UNHANDLED_FAILURE),
while `created_at`, `due_at` and `schedule_next_latest_at` of the state
are preserved from the original. -/
theorem results_transition_table (os : State) (audit_message : String)
    (d sn : ScheduleBy) (err : Error) (exc : Exc) (ser : Exc → RawError) :
    let rs : Results := { original_state := os }
    ((rs.no_change audit_message d sn).state = os)
    ∧ ((rs.pending audit_message d sn).state.error = none
      ∧ (rs.pending audit_message d sn).state.execution_state = ExecutionState.PENDING
      ∧ (rs.pending audit_message d sn).state.result_state = ResultState.ABSENT
      ∧ (rs.pending audit_message d sn).state.created_at = os.created_at
      ∧ (rs.pending audit_message d sn).state.due_at = os.due_at
      ∧ (rs.pending audit_message d sn).state.schedule_next_latest_at
          = os.schedule_next_latest_at)
    ∧ ((rs.progressing audit_message d sn).state.error = none
      ∧ (rs.progressing audit_message d sn).state.execution_state = ExecutionState.PROGRESSING
      ∧ (rs.progressing audit_message d sn).state.result_state = ResultState.ABSENT
      ∧ (rs.progressing audit_message d sn).state.created_at = os.created_at
      ∧ (rs.progressing audit_message d sn).state.due_at = os.due_at
      ∧ (rs.progressing audit_message d sn).state.schedule_next_latest_at
          = os.schedule_next_latest_at)
    ∧ ((rs.success audit_message d sn).state.error = none
      ∧ (rs.success audit_message d sn).state.execution_state = ExecutionState.STOPPED
      ∧ (rs.success audit_message d sn).state.result_state = ResultState.SUCCESS
      ∧ (rs.success audit_message d sn).state.created_at = os.created_at
      ∧ (rs.success audit_message d sn).state.due_at = os.due_at
      ∧ (rs.success audit_message d sn).state.schedule_next_latest_at
          = os.schedule_next_latest_at)
    ∧ ((rs.paused audit_message d sn).state.error = none
      ∧ (rs.paused audit_message d sn).state.execution_state = ExecutionState.PAUSED
      ∧ (rs.paused audit_message d sn).state.result_state = ResultState.ABSENT
      ∧ (rs.paused audit_message d sn).state.created_at = os.created_at
      ∧ (rs.paused audit_message d sn).state.due_at = os.due_at
      ∧ (rs.paused audit_message d sn).state.schedule_next_latest_at
          = os.schedule_next_latest_at)
    ∧ ((rs.cancelled audit_message d sn).state.error = none
      ∧ (rs.cancelled audit_message d sn).state.execution_state = ExecutionState.STOPPED
      ∧ (rs.cancelled audit_message d sn).state.result_state = ResultState.CANCELLED
      ∧ (rs.cancelled audit_message d sn).state.created_at = os.created_at
      ∧ (rs.cancelled audit_message d sn).state.due_at = os.due_at
      ∧ (rs.cancelled audit_message d sn).state.schedule_next_latest_at
          = os.schedule_next_latest_at)
    ∧ ((rs.cancelling audit_message d sn).state.error = none
      ∧ (rs.cancelling audit_message d sn).state.execution_state = ExecutionState.CANCELLING
      ∧ (rs.cancelling audit_message d sn).state.result_state = ResultState.ABSENT
      ∧ (rs.cancelling audit_message d sn).state.created_at = os.created_at
      ∧ (rs.cancelling audit_message d sn).state.due_at = os.due_at
      ∧ (rs.cancelling audit_message d sn).state.schedule_next_latest_at
          = os.schedule_next_latest_at)
    ∧ ((rs.handled_failure err audit_message d sn).state.error = some err.raw
      ∧ (rs.handled_failure err audit_message d sn).state.execution_state
          = ExecutionState.STOPPED
      ∧ (rs.handled_failure err audit_message d sn).state.result_state
          = ResultState.HANDLED_FAILURE
      ∧ (rs.handled_failure err audit_message d sn).state.created_at = os.created_at
      ∧ (rs.handled_failure err audit_message d sn).state.due_at = os.due_at
      ∧ (rs.handled_failure err audit_message d sn).state.schedule_next_latest_at
          = os.schedule_next_latest_at)
    ∧ ((rs.unhandled_failure exc audit_message d ser sn).state.error = some (ser exc)
      ∧ (rs.unhandled_failure exc audit_message d ser sn).state.execution_state
          = ExecutionState.STOPPED
      ∧ (rs.unhandled_failure exc audit_message d ser sn).state.result_state
          = ResultState.UNHANDLED_FAILURE
      ∧ (rs.unhandled_failure exc audit_message d ser sn).state.created_at = os.created_at
      ∧ (rs.unhandled_failure exc audit_message d ser sn).state.due_at = os.due_at
      ∧ (rs.unhandled_failure exc audit_message d ser sn).state.schedule_next_latest_at
          = os.schedule_next_latest_at) :=
  ⟨rfl, ⟨rfl, rfl, rfl, rfl, rfl, rfl⟩, ⟨rfl, rfl, rfl, rfl, rfl, rfl⟩,
    ⟨rfl, rfl, rfl, rfl, rfl, rfl⟩, ⟨rfl, rfl, rfl, rfl, rfl, rfl⟩,
    ⟨rfl, rfl, rfl, rfl, rfl, rfl⟩, ⟨rfl, rfl, rfl, rfl, rfl, rfl⟩,
    ⟨rfl, rfl, rfl, rfl, rfl, rfl⟩, ⟨rfl, rfl, rfl, rfl, rfl, rfl⟩⟩

/-- Claim C7: for every `State` and every `clone` argument list, any field
whose argument is omitted (`NotGiven`) is preserved, and `created_at` is
always preserved (`clone` accepts no `created_at` argument). -/
theorem state_clone_frame (s : State) (e : Arg (Option RawError))
    (x : Arg ExecutionState) (r : Arg ResultState) (d sn : ScheduleBy) :
    (e = Arg.notGiven → (s.clone e x r d sn).error = s.error)
    ∧ (x = Arg.notGiven → (s.clone e x r d sn).execution_state = s.execution_state)
    ∧ (r = Arg.notGiven → (s.clone e x r d sn).result_state = s.result_state)
    ∧ (d = Arg.notGiven → (s.clone e x r d sn).due_at = s.due_at)
    ∧ (sn = Arg.notGiven →
        (s.clone e x r d sn).schedule_next_latest_at = s.schedule_next_latest_at)
    ∧ (s.clone e x r d sn).created_at = s.created_at := by
  refine ⟨?_, ?_, ?_, ?_, ?_, rfl⟩ <;> (intro h; subst h; rfl)

/-- Witness for C7 at a concrete state and argument list. -/
theorem state_clone_frame_witness :
    ((State.fresh 7).clone Arg.notGiven (Arg.given ExecutionState.STOPPED)
        (Arg.given ResultState.SUCCESS) Arg.notGiven Arg.notGiven).error
      = (State.fresh 7).error
    ∧ ((State.fresh 7).clone Arg.notGiven (Arg.given ExecutionState.STOPPED)
        (Arg.given ResultState.SUCCESS) Arg.notGiven Arg.notGiven).created_at
      = (State.fresh 7).created_at :=
  ⟨(state_clone_frame (State.fresh 7) Arg.notGiven (Arg.given ExecutionState.STOPPED)
      (Arg.given ResultState.SUCCESS) Arg.notGiven Arg.notGiven).1 rfl,
    (state_clone_frame (State.fresh 7) Arg.notGiven (Arg.given ExecutionState.STOPPED)
      (Arg.given ResultState.SUCCESS) Arg.notGiven Arg.notGiven).2.2.2.2.2⟩

/-- Claim C8: `StoredInfo.merge(result)` preserves `created_at`, takes
`error`, `execution_state` and `result_state` from `result.state`, and
takes `due_at`/`schedule_next_latest_at` from the result's own fields
(`NotGiven` preserving the stored state's current values under `clone`). -/
theorem stored_info_merge_fields (si : StoredInfo) (r : Result) :
    ((si.merge r).state.created_at = si.state.created_at)
    ∧ ((si.merge r).state.error = r.state.error)
    ∧ ((si.merge r).state.execution_state = r.state.execution_state)
    ∧ ((si.merge r).state.result_state = r.state.result_state)
    ∧ (r.due_at = Arg.notGiven → (si.merge r).state.due_at = si.state.due_at)
    ∧ (∀ v, r.due_at = Arg.given v → (si.merge r).state.due_at = v)
    ∧ (r.schedule_next_latest_at = Arg.notGiven →
        (si.merge r).state.schedule_next_latest_at = si.state.schedule_next_latest_at)
    ∧ (∀ v, r.schedule_next_latest_at = Arg.given v →
        (si.merge r).state.schedule_next_latest_at = v) := by
  refine ⟨rfl, rfl, rfl, rfl, ?_, ?_, ?_, ?_⟩
  · intro h
    simp [StoredInfo.merge, State.clone, Arg.resolve, h]
  · intro v h
    simp [StoredInfo.merge, State.clone, Arg.resolve, h]
  · intro h
    simp [StoredInfo.merge, State.clone, Arg.resolve, h]
  · intro v h
    simp [StoredInfo.merge, State.clone, Arg.resolve, h]

/-- Witness for C8 at a concrete stored info and result. -/
theorem stored_info_merge_fields_witness :
    (StoredInfo.merge { state := State.fresh 3 }
        { state := State.fresh 5, audit_message := "m"
          due_at := Arg.notGiven
          schedule_next_latest_at := Arg.given (some (SchedVal.instant 9)) }).state.due_at
      = (State.fresh 3).due_at
    ∧ (StoredInfo.merge { state := State.fresh 3 }
        { state := State.fresh 5, audit_message := "m"
          due_at := Arg.notGiven
          schedule_next_latest_at := Arg.given (some (SchedVal.instant 9)) }).state.schedule_next_latest_at
      = some (SchedVal.instant 9) :=
  ⟨(stored_info_merge_fields { state := State.fresh 3 }
      { state := State.fresh 5, audit_message := "m", due_at := Arg.notGiven
        schedule_next_latest_at := Arg.given (some (SchedVal.instant 9)) }).2.2.2.2.1 rfl,
    (stored_info_merge_fields { state := State.fresh 3 }
      { state := State.fresh 5, audit_message := "m", due_at := Arg.notGiven
        schedule_next_latest_at := Arg.given (some (SchedVal.instant 9)) }).2.2.2.2.2.2.2
      (some (SchedVal.instant 9)) rfl⟩

/-- Counterexample to claim C4 as stated: the source tests
`self._original_state.due_at` for Python *truthiness*, not for non-nullness,
and a zero `timedelta` is falsy.  For a state whose `due_at` is the
duration `0` (non-null), `no_change` with `due_at=NotGiven` keeps
`NotGiven` instead of carrying the value forward. -/
theorem no_change_zero_duration_cex :
    (Results.no_change
        { original_state :=
            { error := none, execution_state := ExecutionState.PENDING
              result_state := ResultState.ABSENT, created_at := 0
              due_at := some (SchedVal.duration 0), schedule_next_latest_at := none } }
        "" Arg.notGiven Arg.notGiven).due_at = Arg.notGiven
    ∧ ¬ ((Results.no_change
        { original_state :=
            { error := none, execution_state := ExecutionState.PENDING
              result_state := ResultState.ABSENT, created_at := 0
              due_at := some (SchedVal.duration 0), schedule_next_latest_at := none } }
        "" Arg.notGiven Arg.notGiven).due_at
      = Arg.given (some (SchedVal.duration 0))) := by
  constructor
  · rfl
  · intro h
    exact absurd h (by decide)

/-- Claim C4 as amended: `no_change` called with `NotGiven` carries the
state's current `due_at` (resp. `schedule_next_latest_at`) forward when
that value is *truthy* — a non-null instant, or a non-zero duration — and
preserves `NotGiven` when the current value is null *or a zero duration*
(Python truthiness of `timedelta(0)` is false); an explicitly passed value
is returned exactly; and all other transition constructors pass the
caller's `due_at`/`schedule_next_latest_at` through untouched. -/
theorem no_change_schedule_hints (os : State) (audit_message : String)
    (d sn : ScheduleBy) :
    let rs : Results := { original_state := os }
    (d = Arg.notGiven → os.due_at = none →
      (rs.no_change audit_message d sn).due_at = Arg.notGiven)
    ∧ (∀ t, d = Arg.notGiven → os.due_at = some (SchedVal.instant t) →
        (rs.no_change audit_message d sn).due_at = Arg.given (some (SchedVal.instant t)))
    ∧ (∀ k, d = Arg.notGiven → os.due_at = some (SchedVal.duration k) → k ≠ 0 →
        (rs.no_change audit_message d sn).due_at = Arg.given (some (SchedVal.duration k)))
    ∧ (d = Arg.notGiven → os.due_at = some (SchedVal.duration 0) →
        (rs.no_change audit_message d sn).due_at = Arg.notGiven)
    ∧ (∀ v, d = Arg.given v → (rs.no_change audit_message d sn).due_at = Arg.given v)
    ∧ (sn = Arg.notGiven → os.schedule_next_latest_at = none →
        (rs.no_change audit_message d sn).schedule_next_latest_at = Arg.notGiven)
    ∧ (∀ t, sn = Arg.notGiven → os.schedule_next_latest_at = some (SchedVal.instant t) →
        (rs.no_change audit_message d sn).schedule_next_latest_at
          = Arg.given (some (SchedVal.instant t)))
    ∧ (∀ k, sn = Arg.notGiven → os.schedule_next_latest_at = some (SchedVal.duration k) →
        k ≠ 0 →
        (rs.no_change audit_message d sn).schedule_next_latest_at
          = Arg.given (some (SchedVal.duration k)))
    ∧ (sn = Arg.notGiven → os.schedule_next_latest_at = some (SchedVal.duration 0) →
        (rs.no_change audit_message d sn).schedule_next_latest_at = Arg.notGiven)
    ∧ (∀ v, sn = Arg.given v →
        (rs.no_change audit_message d sn).schedule_next_latest_at = Arg.given v)
    ∧ ((rs.pending audit_message d sn).due_at = d
      ∧ (rs.pending audit_message d sn).schedule_next_latest_at = sn)
    ∧ ((rs.progressing audit_message d sn).due_at = d
      ∧ (rs.progressing audit_message d sn).schedule_next_latest_at = sn)
    ∧ ((rs.success audit_message d sn).due_at = d
      ∧ (rs.success audit_message d sn).schedule_next_latest_at = sn)
    ∧ ((rs.paused audit_message d sn).due_at = d
      ∧ (rs.paused audit_message d sn).schedule_next_latest_at = sn)
    ∧ ((rs.cancelled audit_message d sn).due_at = d
      ∧ (rs.cancelled audit_message d sn).schedule_next_latest_at = sn)
    ∧ ((rs.cancelling audit_message d sn).due_at = d
      ∧ (rs.cancelling audit_message d sn).schedule_next_latest_at = sn)
    ∧ (∀ err : Error, (rs.handled_failure err audit_message d sn).due_at = d
      ∧ (rs.handled_failure err audit_message d sn).schedule_next_latest_at = sn)
    ∧ (∀ (exc : Exc) (ser : Exc → RawError),
        (rs.unhandled_failure exc audit_message d ser sn).due_at = d
      ∧ (rs.unhandled_failure exc audit_message d ser sn).schedule_next_latest_at = sn) := by
  refine ⟨?_, ?_, ?_, ?_, ?_, ?_, ?_, ?_, ?_, ?_,
    ⟨rfl, rfl⟩, ⟨rfl, rfl⟩, ⟨rfl, rfl⟩, ⟨rfl, rfl⟩, ⟨rfl, rfl⟩, ⟨rfl, rfl⟩,
    fun _ => ⟨rfl, rfl⟩, fun _ _ => ⟨rfl, rfl⟩⟩
  · intro hd hdue
    simp [Results.no_change, truthySched, hd, hdue]
  · intro t hd hdue
    simp [Results.no_change, truthySched, hd, hdue]
  · intro k hd hdue hk
    simp [Results.no_change, truthySched, hd, hdue, hk]
  · intro hd hdue
    simp [Results.no_change, truthySched, hd, hdue]
  · intro v hd
    simp [Results.no_change, hd]
  · intro hsn hsched
    simp [Results.no_change, truthySched, hsn, hsched]
  · intro t hsn hsched
    simp [Results.no_change, truthySched, hsn, hsched]
  · intro k hsn hsched hk
    simp [Results.no_change, truthySched, hsn, hsched, hk]
  · intro hsn hsched
    simp [Results.no_change, truthySched, hsn, hsched]
  · intro v hsn
    simp [Results.no_change, hsn]

/-- Witness for the amended C4: a non-null instant is carried forward, a
null hint keeps `NotGiven`. -/
theorem no_change_schedule_hints_witness :
    (Results.no_change
        { original_state :=
            { error := none, execution_state := ExecutionState.PENDING
              result_state := ResultState.ABSENT, created_at := 0
              due_at := some (SchedVal.instant 11), schedule_next_latest_at := none } }
        "" Arg.notGiven Arg.notGiven).due_at = Arg.given (some (SchedVal.instant 11))
    ∧ (Results.no_change
        { original_state :=
            { error := none, execution_state := ExecutionState.PENDING
              result_state := ResultState.ABSENT, created_at := 0
              due_at := some (SchedVal.instant 11), schedule_next_latest_at := none } }
        "" Arg.notGiven Arg.notGiven).schedule_next_latest_at = Arg.notGiven :=
  ⟨(no_change_schedule_hints
      { error := none, execution_state := ExecutionState.PENDING
        result_state := ResultState.ABSENT, created_at := 0
        due_at := some (SchedVal.instant 11), schedule_next_latest_at := none }
      "" Arg.notGiven Arg.notGiven).2.1 11 rfl rfl,
    (no_change_schedule_hints
      { error := none, execution_state := ExecutionState.PENDING
        result_state := ResultState.ABSENT, created_at := 0
        due_at := some (SchedVal.instant 11), schedule_next_latest_at := none }
      "" Arg.notGiven Arg.notGiven).2.2.2.2.2.1 rfl rfl⟩

theorem jobStatus_earliest_due_at_some_iff (s : JobStatus) (dbf mbgt t : Int) :
    s.earliest_due_at dbf mbgt = some t
      ↔ ∃ le, s.latest_execution = some le
          ∧ ∃ v, le.result.due_at = Arg.given (some v)
            ∧ t = resolveSched dbf v ∧ mbgt ≤ t := by
  constructor
  · intro h
    unfold JobStatus.earliest_due_at at h
    cases hle : s.latest_execution with
    | none => rw [hle] at h; exact Option.noConfusion h
    | some le =>
      rw [hle] at h
      have h2 : (match le.result.due_at with
          | Arg.notGiven => (none : Option Int)
          | Arg.given none => none
          | Arg.given (some v) =>
            if resolveSched dbf v < mbgt then none else some (resolveSched dbf v))
          = some t := h
      cases hdue : le.result.due_at with
      | notGiven => rw [hdue] at h2; exact Option.noConfusion h2
      | given ov =>
        cases ov with
        | none => rw [hdue] at h2; exact Option.noConfusion h2
        | some v =>
          rw [hdue] at h2
          have h3 : (if resolveSched dbf v < mbgt then (none : Option Int)
              else some (resolveSched dbf v)) = some t := h2
          by_cases hlt : resolveSched dbf v < mbgt
          · rw [if_pos hlt] at h3; exact Option.noConfusion h3
          · rw [if_neg hlt] at h3
            injection h3 with h4
            exact ⟨le, rfl, v, hdue, h4.symm, by omega⟩
  · rintro ⟨le, hle, v, hdue, ht, hge⟩
    unfold JobStatus.earliest_due_at
    rw [hle]
    show (match le.result.due_at with
        | Arg.notGiven => (none : Option Int)
        | Arg.given none => none
        | Arg.given (some w) =>
          if resolveSched dbf w < mbgt then none else some (resolveSched dbf w))
        = some t
    rw [hdue]
    show (if resolveSched dbf v < mbgt then (none : Option Int)
        else some (resolveSched dbf v)) = some t
    rw [if_neg (by omega), ht]

theorem jobStatus_earliest_next_schedule_at_some_iff (s : JobStatus) (dbf mbgt t : Int) :
    s.earliest_next_schedule_at dbf mbgt = some t
      ↔ ∃ le, s.latest_execution = some le
          ∧ ∃ v, le.result.schedule_next_latest_at = Arg.given (some v)
            ∧ t = resolveSched dbf v ∧ mbgt ≤ t := by
  constructor
  · intro h
    unfold JobStatus.earliest_next_schedule_at at h
    cases hle : s.latest_execution with
    | none => rw [hle] at h; exact Option.noConfusion h
    | some le =>
      rw [hle] at h
      have h2 : (match le.result.schedule_next_latest_at with
          | Arg.notGiven => (none : Option Int)
          | Arg.given none => none
          | Arg.given (some v) =>
            if resolveSched dbf v < mbgt then none else some (resolveSched dbf v))
          = some t := h
      cases hdue : le.result.schedule_next_latest_at with
      | notGiven => rw [hdue] at h2; exact Option.noConfusion h2
      | given ov =>
        cases ov with
        | none => rw [hdue] at h2; exact Option.noConfusion h2
        | some v =>
          rw [hdue] at h2
          have h3 : (if resolveSched dbf v < mbgt then (none : Option Int)
              else some (resolveSched dbf v)) = some t := h2
          by_cases hlt : resolveSched dbf v < mbgt
          · rw [if_pos hlt] at h3; exact Option.noConfusion h3
          · rw [if_neg hlt] at h3
            injection h3 with h4
            exact ⟨le, rfl, v, hdue, h4.symm, by omega⟩
  · rintro ⟨le, hle, v, hdue, ht, hge⟩
    unfold JobStatus.earliest_next_schedule_at
    rw [hle]
    show (match le.result.schedule_next_latest_at with
        | Arg.notGiven => (none : Option Int)
        | Arg.given none => none
        | Arg.given (some w) =>
          if resolveSched dbf w < mbgt then none else some (resolveSched dbf w))
        = some t
    rw [hdue]
    show (if resolveSched dbf v < mbgt then (none : Option Int)
        else some (resolveSched dbf v)) = some t
    rw [if_neg (by omega), ht]

/-- Claim C5: `JobTracker.earliest_due_at` returns the minimum over the
non-null per-status values of all statuses reachable via
`jobs(max_levels=-1)` and returns null iff every contributor is null;
each `JobStatus.earliest_due_at` is null without a latest execution or
with a `NotGiven`/null result hint, resolves a duration via
`delta_base_from + duration`, and yields null when the resulting instant
is strictly below `must_be_greater_than` — and the same holds for
`earliest_next_schedule_at` reading `schedule_next_latest_at`. -/
theorem tracker_earliest_aggregation (tr : JobTracker) (dbf mbgt : Int) :
    (tr.earliest_due_at dbf mbgt = none
      ↔ ∀ c ∈ (tr.jobs [] (-1)).map
          (fun pr => (tr.heap.get pr.2).earliest_due_at dbf mbgt), c = none)
    ∧ (∀ t, tr.earliest_due_at dbf mbgt = some t →
        some t ∈ (tr.jobs [] (-1)).map
            (fun pr => (tr.heap.get pr.2).earliest_due_at dbf mbgt)
          ∧ ∀ u, some u ∈ (tr.jobs [] (-1)).map
              (fun pr => (tr.heap.get pr.2).earliest_due_at dbf mbgt) → t ≤ u)
    ∧ (∀ (s : JobStatus) (t : Int),
        s.earliest_due_at dbf mbgt = some t
          ↔ ∃ le, s.latest_execution = some le
              ∧ ∃ v, le.result.due_at = Arg.given (some v)
                ∧ t = resolveSched dbf v ∧ mbgt ≤ t)
    ∧ (tr.earliest_next_schedule_at dbf mbgt = none
      ↔ ∀ c ∈ (tr.jobs [] (-1)).map
          (fun pr => (tr.heap.get pr.2).earliest_next_schedule_at dbf mbgt), c = none)
    ∧ (∀ t, tr.earliest_next_schedule_at dbf mbgt = some t →
        some t ∈ (tr.jobs [] (-1)).map
            (fun pr => (tr.heap.get pr.2).earliest_next_schedule_at dbf mbgt)
          ∧ ∀ u, some u ∈ (tr.jobs [] (-1)).map
              (fun pr => (tr.heap.get pr.2).earliest_next_schedule_at dbf mbgt) → t ≤ u)
    ∧ (∀ (s : JobStatus) (t : Int),
        s.earliest_next_schedule_at dbf mbgt = some t
          ↔ ∃ le, s.latest_execution = some le
              ∧ ∃ v, le.result.schedule_next_latest_at = Arg.given (some v)
                ∧ t = resolveSched dbf v ∧ mbgt ≤ t) :=
  ⟨getEarliestDate_eq_none_iff _,
    fun t h => getEarliestDate_spec _ t h,
    fun s t => jobStatus_earliest_due_at_some_iff s dbf mbgt t,
    getEarliestDate_eq_none_iff _,
    fun t h => getEarliestDate_spec _ t h,
    fun s t => jobStatus_earliest_next_schedule_at_some_iff s dbf mbgt t⟩

/-- Witness for C5: in a tracker whose statuses contribute due instants
5, 3 and nothing, the aggregate is the membership-minimal value 3. -/
theorem tracker_earliest_aggregation_witness :
    some 3 ∈ (witnessTracker.jobs [] (-1)).map
        (fun pr => (witnessTracker.heap.get pr.2).earliest_due_at 0 0)
    ∧ ∀ u, some u ∈ (witnessTracker.jobs [] (-1)).map
        (fun pr => (witnessTracker.heap.get pr.2).earliest_due_at 0 0) → 3 ≤ u :=
  (tracker_earliest_aggregation witnessTracker 0 0).2.1 3 rfl

/-- Claim C6: when `start_jobs` holds a status at a path not yet in
`added_jobs`, `job_status` returns a clone whose `name`, `job_before` and
executions list equal the original's at the moment of cloning, the original
object is untouched, and afterwards the two execution lists are disjoint:
appending through the clone's reference never modifies the status still
held in `start_jobs`, and appending through the original never modifies the
clone. -/
theorem job_status_clone_isolation (tr : JobTracker) (jp : JobPath) (r0 : Ref)
    (j j' : Job)
    (hadded : lookupA tr.added_jobs jp.path = none)
    (hstart : lookupA tr.start_jobs jp.path = some r0)
    (hvalid : r0 < tr.heap.store.length) :
    ((tr.job_status jp).2.heap.get (tr.job_status jp).1).name = (tr.heap.get r0).name
    ∧ ((tr.job_status jp).2.heap.get (tr.job_status jp).1).job_before
        = (tr.heap.get r0).job_before
    ∧ ((tr.job_status jp).2.heap.get (tr.job_status jp).1).job_executions
        = (tr.heap.get r0).job_executions
    ∧ (tr.job_status jp).2.heap.get r0 = tr.heap.get r0
    ∧ (tr.job_status jp).1 ≠ r0
    ∧ ((((tr.job_status jp).2.add_execution (tr.job_status jp).1 j).heap.get
          (tr.job_status jp).1).job_executions
        = (((tr.job_status jp).2.heap.get (tr.job_status jp).1).job_executions ++ [j]))
    ∧ (((tr.job_status jp).2.add_execution (tr.job_status jp).1 j).heap.get r0
        = tr.heap.get r0)
    ∧ (((tr.job_status jp).2.add_execution r0 j').heap.get (tr.job_status jp).1
        = (tr.job_status jp).2.heap.get (tr.job_status jp).1) := by
  have hrun : tr.job_status jp
      = ((tr.heap.alloc (tr.heap.get r0).clone).1,
          { tr with heap := (tr.heap.alloc (tr.heap.get r0).clone).2
                    added_jobs := tr.added_jobs
                      ++ [(jp.path, (tr.heap.alloc (tr.heap.get r0).clone).1)] }) := by
    unfold JobTracker.job_status
    rw [hadded, hstart]
  have hr1 : (tr.job_status jp).1 = tr.heap.store.length := by rw [hrun]; rfl
  have hne : (tr.job_status jp).1 ≠ r0 := by
    rw [hr1]; exact Nat.ne_of_gt hvalid
  have hget1 : (tr.job_status jp).2.heap.get (tr.job_status jp).1
      = (tr.heap.get r0).clone := by
    rw [hrun]; exact Heap.get_alloc_new tr.heap _
  have hget0 : (tr.job_status jp).2.heap.get r0 = tr.heap.get r0 := by
    rw [hrun]; exact Heap.get_alloc_old tr.heap _ r0 hvalid
  have hlen : (tr.job_status jp).2.heap.store.length = tr.heap.store.length + 1 := by
    rw [hrun]; simp [Heap.alloc]
  refine ⟨?_, ?_, ?_, hget0, hne, ?_, ?_, ?_⟩
  · rw [hget1, JobStatus.clone_eq]
  · rw [hget1, JobStatus.clone_eq]
  · rw [hget1, JobStatus.clone_eq]
  · unfold JobTracker.add_execution
    have hlt : (tr.job_status jp).1 < (tr.job_status jp).2.heap.store.length := by
      rw [hlen, hr1]; exact Nat.lt_succ_self _
    rw [Heap.get_set_self _ _ _ hlt]
    rfl
  · unfold JobTracker.add_execution
    rw [Heap.get_set_ne _ _ _ _ hne, hget0]
  · unfold JobTracker.add_execution
    rw [Heap.get_set_ne _ _ _ _ (Ne.symm hne)]

/-- Witness for C6: scenario F — a start status at path `["blah"]` with one
prior execution is cloned; appending to the clone leaves the original with
its single execution. -/
theorem job_status_clone_isolation_witness :
    let tr : JobTracker :=
      { heap := { store := [statusWithHints Arg.notGiven] }
        start_jobs := [(["blah"], 0)], added_jobs := [] }
    let jp : JobPath :=
      { identifier := { identifier := "w1" }, pathPrefix := [], job_name := "blah" }
    ((tr.job_status jp).2.heap.get (tr.job_status jp).1).job_executions
      = (tr.heap.get 0).job_executions
    ∧ ((tr.job_status jp).2.add_execution (tr.job_status jp).1
        (jobWithHints Arg.notGiven)).heap.get 0 = tr.heap.get 0 := by
  intro tr jp
  exact ⟨(job_status_clone_isolation tr jp 0 (jobWithHints Arg.notGiven)
      (jobWithHints Arg.notGiven) rfl rfl (by simp)).2.2.1,
    (job_status_clone_isolation tr jp 0 (jobWithHints Arg.notGiven)
      (jobWithHints Arg.notGiven) rfl rfl (by simp)).2.2.2.2.2.2.1⟩

/-- Claim C9: in the reference in-memory storage, for an identifier never
registered via `upsert_workflow_information`, both `retrieve_computations`
and `upsert_computations` fail with `WorkflowNotFound` (retrieval fails even
when a computations entry exists for the identifier, since only
`_workflows` is consulted); for a registered identifier,
`upsert_computations` merges the provided map per-path into the existing
one, overwriting listed paths and preserving every path not listed. -/
theorem memory_storage_not_found_and_merge (st : MemoryStorage)
    (identifier : WorkflowIdentifier) (stored_infos : List (Path × StoredInfo)) :
    (lookupA st.workflows identifier = none →
      st.retrieve_computations identifier
          = Except.error (Exc.workflowNotFound identifier.identifier)
        ∧ st.upsert_computations identifier stored_infos
          = Except.error (Exc.workflowNotFound identifier.identifier))
    ∧ ((lookupA st.workflows identifier).isSome →
        (stored_infos.map Prod.fst).Nodup →
        ∃ st', st.upsert_computations identifier stored_infos = Except.ok st'
          ∧ ∀ p : Path,
              lookupA ((lookupA st'.computations identifier).getD []) p
                = ((lookupA stored_infos p).map some).getD
                    (lookupA ((lookupA st.computations identifier).getD []) p)) := by
  constructor
  · intro h
    constructor
    · simp [MemoryStorage.retrieve_computations, h]
    · simp [MemoryStorage.upsert_computations, h]
  · intro hs hnd
    have hnone : (lookupA st.workflows identifier).isNone = false := by
      cases hw : lookupA st.workflows identifier with
      | none => rw [hw] at hs; simp at hs
      | some w => simp
    refine Exists.intro ({ st with computations := updateA st.computations identifier (stored_infos.foldl (fun acc pr => updateA acc pr.1 pr.2) ((lookupA st.computations identifier).getD [])) }) ⟨?_, ?_⟩
    · unfold MemoryStorage.upsert_computations
      rw [if_neg (by simp [hnone])]
    · intro p
      simp only [lookupA_updateA_self, Option.getD_some]
      exact foldl_updateA_lookup stored_infos _ p hnd

/-- Witness for C9: an unregistered identifier fails both operations (even
with an empty computations entry present), and a registered identifier
merges per-path (the listed path is overwritten, the unlisted one kept). -/
theorem memory_storage_not_found_and_merge_witness :
    (MemoryStorage.retrieve_computations
        { computations := [(⟨"w1"⟩, [])], workflows := [] } ⟨"w1"⟩
      = Except.error (Exc.workflowNotFound "w1"))
    ∧ (∃ st', MemoryStorage.upsert_computations
          { computations := [(⟨"w2"⟩, [(["a"], { state := State.fresh 1 }),
                                       (["b"], { state := State.fresh 2 })])]
            workflows := [(⟨"w2"⟩, { workflow_code := "c", workflow_version := 1
                                     information := "", tags := []
                                     earliest_due_at := none
                                     earliest_next_schedule_at := none })] }
          ⟨"w2"⟩ [(["a"], { state := State.fresh 9 })]
        = Except.ok st'
        ∧ ∀ p : Path,
            lookupA ((lookupA st'.computations ⟨"w2"⟩).getD []) p
              = ((lookupA [(["a"], ({ state := State.fresh 9 } : StoredInfo))] p).map some).getD
                  (lookupA [(["a"], ({ state := State.fresh 1 } : StoredInfo)),
                            (["b"], ({ state := State.fresh 2 } : StoredInfo))] p)) := by
  constructor
  · exact (memory_storage_not_found_and_merge
      { computations := [(⟨"w1"⟩, [])], workflows := [] } ⟨"w1"⟩ []).1 rfl |>.1
  · exact (memory_storage_not_found_and_merge
      { computations := [(⟨"w2"⟩, [(["a"], { state := State.fresh 1 }),
                                   (["b"], { state := State.fresh 2 })])]
        workflows := [(⟨"w2"⟩, { workflow_code := "c", workflow_version := 1
                                 information := "", tags := []
                                 earliest_due_at := none
                                 earliest_next_schedule_at := none })] }
      ⟨"w2"⟩ [(["a"], { state := State.fresh 9 })]).2 (by rfl) (by simp)

/-- Claim C10: `upsert_workflow_information` never fails: it is total (the
embedding returns a `MemoryStorage`, not an `Except`, mirroring the
unconditional `self._workflows[identifier] = workflow_information`), it
creates or overwrites the entry for any identifier — registered before or
not — and `retrieve_workflow_information` immediately afterwards succeeds
with the stored information; `store_new_workflow` relies on exactly this to
register brand-new workflows. -/
theorem upsert_workflow_information_creates (st : MemoryStorage)
    (identifier : WorkflowIdentifier) (info : WorkflowInformation)
    (new_id : String) (for_storage : WorkflowIdentifier → WorkflowInformation) :
    ((st.upsert_workflow_information identifier info).retrieve_workflow_information
        identifier = Except.ok info)
    ∧ ((st.store_new_workflow new_id for_storage).2.retrieve_workflow_information
          (st.store_new_workflow new_id for_storage).1
        = Except.ok (for_storage (st.store_new_workflow new_id for_storage).1)) := by
  constructor
  · simp [MemoryStorage.retrieve_workflow_information,
      MemoryStorage.upsert_workflow_information, lookupA_updateA_self]
  · simp [MemoryStorage.store_new_workflow, MemoryStorage.retrieve_workflow_information,
      MemoryStorage.upsert_workflow_information, lookupA_updateA_self]

theorem run_skip_eq (eng : Engine) (jp : JobPath) (tr : JobTracker)
    (comp : Computation) :
    eng.run jp tr comp OverrideExecute.skipExecute
      = (eng.preJob jp tr comp, (tr.job_status jp).2) := rfl

theorem run_noOverride_eq (eng : Engine) (jp : JobPath) (tr : JobTracker)
    (comp : Computation) :
    eng.run jp tr comp OverrideExecute.noOverride
      = (eng.make_job jp (some (eng.runResult jp tr comp comp))
           (eng.make_error comp (some (eng.runResult jp tr comp comp))) comp,
         (tr.job_status jp).2.add_execution (tr.job_status jp).1
           (eng.make_job jp (some (eng.runResult jp tr comp comp))
             (eng.make_error comp (some (eng.runResult jp tr comp comp))) comp)) := rfl

theorem run_withComp_eq (eng : Engine) (jp : JobPath) (tr : JobTracker)
    (comp c : Computation) :
    eng.run jp tr comp (OverrideExecute.withComp c)
      = (eng.make_job jp (some (eng.runResult jp tr comp c))
           (eng.make_error comp (some (eng.runResult jp tr comp c))) comp,
         (tr.job_status jp).2.add_execution (tr.job_status jp).1
           (eng.make_job jp (some (eng.runResult jp tr comp c))
             (eng.make_error comp (some (eng.runResult jp tr comp c))) comp)) := rfl

/-- Claim C1: when a computation's `execute` raises, `Engine.run` converts
the exception instead of propagating it (the embedding of `run` is a total
function: the `try/except` around `execute` is the only place the raise can
surface, and it always produces a `Result`): the resulting job's result has
`result_state = UNHANDLED_FAILURE`, `execution_state = STOPPED`, and
`state.error` equal to the serialization of the exception by the
computation's own serializer when it implements `ExceptionSerializer` and
by the engine's default serializer otherwise; the post-snapshot job is
appended to the job status's executions and returned, with non-null
`Job.state.error` and `Job.exception`. -/
theorem engine_run_converts_exception (eng : Engine) (jp : JobPath)
    (tr : JobTracker) (comp : Computation) (exc : Exc)
    (hwf : tr.WF)
    (hex : ∀ s, comp.execute s = Except.error exc) :
    ((eng.run jp tr comp OverrideExecute.noOverride).1.result.state.result_state
        = ResultState.UNHANDLED_FAILURE)
    ∧ ((eng.run jp tr comp OverrideExecute.noOverride).1.result.state.execution_state
        = ExecutionState.STOPPED)
    ∧ ((eng.run jp tr comp OverrideExecute.noOverride).1.result.state.error
        = some ((comp.exception_serializer.getD eng.default_exception_serializer) exc))
    ∧ ((eng.run jp tr comp OverrideExecute.noOverride).1.state.error.isSome = true)
    ∧ (((eng.run jp tr comp OverrideExecute.noOverride).1.exception).isSome = true)
    ∧ (((eng.run jp tr comp OverrideExecute.noOverride).2.heap.get
          (tr.job_status jp).1).job_executions
        = ((tr.job_status jp).2.heap.get (tr.job_status jp).1).job_executions
          ++ [(eng.run jp tr comp OverrideExecute.noOverride).1]) := by
  have href := job_status_ref_lt tr jp hwf
  have hres : eng.runResult jp tr comp comp
      = (Results.using (eng.preJob jp tr comp).state).unhandled_failure exc
          "unhandled exception caught by internal logic" Arg.notGiven
          (comp.exception_serializer.getD eng.default_exception_serializer)
          Arg.notGiven := by
    unfold Engine.runResult
    rw [hex]
  refine ⟨?_, ?_, ?_, ?_, ?_, ?_⟩
  · rw [run_noOverride_eq, hres]; rfl
  · rw [run_noOverride_eq, hres]; rfl
  · rw [run_noOverride_eq, hres]; rfl
  · rw [run_noOverride_eq, hres]; rfl
  · rw [run_noOverride_eq, hres]; rfl
  · rw [run_noOverride_eq]
    have hget : (((tr.job_status jp).2.add_execution (tr.job_status jp).1
          (eng.make_job jp (some (eng.runResult jp tr comp comp))
            (eng.make_error comp (some (eng.runResult jp tr comp comp))) comp)).heap.get
          (tr.job_status jp).1)
        = (((tr.job_status jp).2.heap.get (tr.job_status jp).1).add_execution
            (eng.make_job jp (some (eng.runResult jp tr comp comp))
              (eng.make_error comp (some (eng.runResult jp tr comp comp))) comp)) := by
      unfold JobTracker.add_execution
      exact Heap.get_set_self _ _ _ href
    rw [hget]
    rfl

/-- Witness for C1: a computation that always raises `RuntimeError("boom")`
run on an empty tracker with the default simple serializer. -/
theorem engine_run_converts_exception_witness :
    (∀ s, boomComputation.execute s = Except.error (Exc.runtimeError "boom"))
    ∧ ((witnessEngine.run witnessJobPath emptyTracker boomComputation
          OverrideExecute.noOverride).1.result.state.result_state
        = ResultState.UNHANDLED_FAILURE)
    ∧ ((witnessEngine.run witnessJobPath emptyTracker boomComputation
          OverrideExecute.noOverride).1.result.state.error
        = some (SimpleError.serialize (Exc.runtimeError "boom")))
    ∧ (((witnessEngine.run witnessJobPath emptyTracker boomComputation
          OverrideExecute.noOverride).1.exception).isSome = true) := by
  have hwf : emptyTracker.WF := by
    constructor
    · intro pr h; simp [emptyTracker] at h
    · intro pr h; simp [emptyTracker] at h
  have main := engine_run_converts_exception witnessEngine witnessJobPath emptyTracker
    boomComputation (Exc.runtimeError "boom") hwf (fun s => rfl)
  exact ⟨fun s => rfl, main.1, main.2.2.1, main.2.2.2.2.1⟩

/-- Claim C3: `Engine.run` with `override_execute=True` returns the
pre-snapshot job — built from `job_before`'s result — without invoking any
`execute` (the returned job and tracker are unchanged when `execute` is
replaced by an arbitrary function) and without appending an execution to
the job status; with `override_execute` a computation `c`, the engine
invokes `c.execute` instead of `computation.execute` (replacing
`computation.execute` does not change the returned result) while the
post-snapshot's exception serializer and error resolver are still selected
from the original computation (replacing `c`'s serializer and resolver
leaves the run unchanged). -/
theorem engine_run_override_execute (eng : Engine) (jp : JobPath)
    (tr : JobTracker) (comp c : Computation) :
    (eng.run jp tr comp OverrideExecute.skipExecute
      = (eng.make_job jp
          (((tr.job_status jp).2.heap.get (tr.job_status jp).1).job_before.map
            (fun jb => jb.result))
          (eng.make_error comp
            (((tr.job_status jp).2.heap.get (tr.job_status jp).1).job_before.map
              (fun jb => jb.result)))
          comp,
         (tr.job_status jp).2))
    ∧ ((eng.run jp tr comp OverrideExecute.skipExecute).2.execsAt jp.path
        = tr.execsAt jp.path)
    ∧ (∀ f, (eng.run jp tr { comp with execute := f }
          OverrideExecute.skipExecute).1.result
        = (eng.run jp tr comp OverrideExecute.skipExecute).1.result
      ∧ (eng.run jp tr { comp with execute := f }
          OverrideExecute.skipExecute).1.state
        = (eng.run jp tr comp OverrideExecute.skipExecute).1.state
      ∧ (eng.run jp tr { comp with execute := f }
          OverrideExecute.skipExecute).2
        = (eng.run jp tr comp OverrideExecute.skipExecute).2)
    ∧ ((eng.run jp tr comp (OverrideExecute.withComp c)).1
        = eng.make_job jp (some (eng.runResult jp tr comp c))
            (eng.make_error comp (some (eng.runResult jp tr comp c))) comp)
    ∧ ((eng.run jp tr comp (OverrideExecute.withComp c)).2
        = (tr.job_status jp).2.add_execution (tr.job_status jp).1
            (eng.run jp tr comp (OverrideExecute.withComp c)).1)
    ∧ (∀ σ ρ, eng.run jp tr comp
          (OverrideExecute.withComp
            { c with exception_serializer := σ, error_resolver := ρ })
        = eng.run jp tr comp (OverrideExecute.withComp c))
    ∧ (∀ f, (eng.run jp tr { comp with execute := f }
          (OverrideExecute.withComp c)).1.result
        = (eng.run jp tr comp (OverrideExecute.withComp c)).1.result) := by
  refine ⟨rfl, ?_, fun f => ⟨rfl, rfl, rfl⟩, rfl, rfl, fun σ ρ => rfl, fun f => rfl⟩
  rw [run_skip_eq]
  cases h1 : lookupA tr.added_jobs jp.path with
  | some r =>
    have hjs : tr.job_status jp = (r, tr) := by
      unfold JobTracker.job_status
      rw [h1]
    rw [hjs]
  | none =>
    cases h2 : lookupA tr.start_jobs jp.path with
    | some r0 =>
      have hjs : tr.job_status jp
          = ((tr.heap.alloc (tr.heap.get r0).clone).1,
             { tr with heap := (tr.heap.alloc (tr.heap.get r0).clone).2
                       added_jobs := tr.added_jobs
                         ++ [(jp.path, (tr.heap.alloc (tr.heap.get r0).clone).1)] }) := by
        unfold JobTracker.job_status
        rw [h1, h2]
      rw [hjs]
      unfold JobTracker.execsAt
      rw [lookupA_append_single_self _ _ _ h1, h1, h2]
      have hnew : ((tr.heap.alloc (tr.heap.get r0).clone).2).get
          (tr.heap.alloc (tr.heap.get r0).clone).1 = (tr.heap.get r0).clone :=
        Heap.get_alloc_new tr.heap _
      show ((tr.heap.alloc (tr.heap.get r0).clone).2.get
          (tr.heap.alloc (tr.heap.get r0).clone).1).job_executions
        = (tr.heap.get r0).job_executions
      rw [hnew, JobStatus.clone_eq]
    | none =>
      have hjs : tr.job_status jp
          = ((tr.heap.alloc (freshJobStatus jp.job_name)).1,
             { tr with heap := (tr.heap.alloc (freshJobStatus jp.job_name)).2
                       added_jobs := tr.added_jobs
                         ++ [(jp.path, (tr.heap.alloc (freshJobStatus jp.job_name)).1)] }) := by
        unfold JobTracker.job_status
        rw [h1, h2]
      rw [hjs]
      unfold JobTracker.execsAt
      rw [lookupA_append_single_self _ _ _ h1, h1, h2]
      have hnew : ((tr.heap.alloc (freshJobStatus jp.job_name)).2).get
          (tr.heap.alloc (freshJobStatus jp.job_name)).1 = freshJobStatus jp.job_name :=
        Heap.get_alloc_new tr.heap _
      show ((tr.heap.alloc (freshJobStatus jp.job_name)).2.get
          (tr.heap.alloc (freshJobStatus jp.job_name)).1).job_executions = []
      rw [hnew]
      rfl

end Workflows
